import Mathlib

/-!
Verification of the ProofOfWork backend trust engine (pow/backend/server.js).

The backend keeps its state in SQLite tables (workers, work_claims,
verifications, anomaly_flags, credit_reports); here each table row becomes a
Lean structure and the whole database a ServerState of lists.  JS numbers are
modelled as rationals, calendar dates and creation minutes as integers (ISO
date strings compare lexicographically, i.e. chronologically), and the random
ids / tx hashes / block numbers drawn by the handlers are passed in as
explicit oracle arguments.  Each Express handler becomes a pure function from
the state (plus its request arguments) to a typed result (Except) and a new
state.
-/

namespace PoW

/-- Claim lifecycle states.  The SQL schema stores free-form strings; the
backend itself writes only "pending" (default) and "verified", while the
companion Solidity contract also has PartiallyVerified and Rejected, so all
four are representable here. -/
inductive ClaimStatus
  | pending
  | partiallyVerified
  | verified
  | rejected
deriving DecidableEq

/-- A row of the workers table (fields the trust engine reads/writes). -/
structure Worker where
  id : String
  reputation_score : ℚ
  verification_depth : ℕ
  total_days_worked : ℕ
deriving DecidableEq

/-- A row of the work_claims table.  created_min is the minute bucket of the
created_at timestamp (used only by the batch scan's clustering signal). -/
structure Claim where
  id : String
  worker_id : String
  date : ℤ
  hours : ℚ
  task : String
  status : ClaimStatus
  anomaly_score : ℚ
  tx_hash : Option String
  ipfs_hash : Option String
  block_number : Option ℤ
  created_min : ℤ
deriving DecidableEq

/-- A row of the verifications table. -/
structure Verification where
  id : String
  claim_id : String
  verifier_id : String
  signature : String
  gps_distance_m : Option ℚ
  is_valid : Bool
deriving DecidableEq

/-- A row of the anomaly_flags table (description text omitted: no handler
branches on it). -/
structure AnomalyFlag where
  id : String
  flagged_entity : String
  anomaly_type : String
  risk_score : ℚ
  resolved : Bool
deriving DecidableEq

/-- A row of the credit_reports table. -/
structure CreditReport where
  id : String
  worker_id : String
  score : ℤ
  tier : String
  max_loan_usd : ℤ
  months_on_chain : ℤ
  avg_peers : ℚ
  avg_weekly_hours : ℚ
deriving DecidableEq

/-- The whole database. -/
structure ServerState where
  workers : List Worker
  claims : List Claim
  verifications : List Verification
  flags : List AnomalyFlag
  reports : List CreditReport
deriving DecidableEq

def emptyState : ServerState := ⟨[], [], [], [], []⟩

/-- Typed versions of the error responses the handlers return. -/
inductive ApiError
  | missingFields
  | hoursTooHigh
  | duplicateClaim
  | claimNotFound
  | selfVerification
  | alreadySealed
  | duplicateVerification
  | gpsTooFar
  | workerNotFound
  | noVerifiedClaims
deriving DecidableEq

/-- Insert into a list kept in descending key order (model of ORDER BY DESC;
SQLite leaves tie order unspecified, this model fixes one). -/
def insertDescBy {α β : Type} [LinearOrder β] (f : α → β) (x : α) : List α → List α
  | [] => [x]
  | y :: ys => if f y ≤ f x then x :: y :: ys else y :: insertDescBy f x ys

/-- Sort a list in descending key order. -/
def sortDescBy {α β : Type} [LinearOrder β] (f : α → β) : List α → List α
  | [] => []
  | x :: xs => insertDescBy f x (sortDescBy f xs)

/-- The SELECT in calcAnomalyScore: this worker's claims dated within the
trailing 7 days of the submission date, most recent first, at most 10. -/
def recentClaims (claims : List Claim) (workerId : String) (d : ℤ) : List Claim :=
  (sortDescBy Claim.date
    (claims.filter (fun c => c.worker_id == workerId && decide (d - 7 ≤ c.date)))).take 10

/-- The worker's claims with exactly the same hours value in the trailing 14
days (the second SELECT in calcAnomalyScore). -/
def sameHoursCount (claims : List Claim) (workerId : String) (hrs : ℚ) (d : ℤ) : ℕ :=
  (claims.filter
    (fun c => c.worker_id == workerId && decide (c.hours = hrs) && decide (d - 14 ≤ c.date))).length

/-- calcAnomalyScore from server.js: sequential accumulation of four heuristic
signals, capped at 1. -/
def calcAnomalyScore (claims : List Claim) (workerId : String) (hrs : ℚ) (d : ℤ) : ℚ :=
  let score : ℚ := 0
  let score := if 14 < hrs then score + 0.4 else score
  let score := if 16 < hrs then score + 0.35 else score
  let recent := recentClaims claims workerId d
  let avgHours : ℚ :=
    if recent.length = 0 then hrs else (recent.map Claim.hours).sum / (recent.length : ℚ)
  let score := if avgHours * 1.8 < hrs ∧ 3 ≤ recent.length then score + 0.25 else score
  let score := if 5 ≤ sameHoursCount claims workerId hrs d then score + 0.2 else score
  min score 1

/-- The spec's description of the same heuristic as an order-independent sum
of four independent signals, capped at 1 (written from the spec's words, to
be compared with calcAnomalyScore). -/
def anomalySignalSum (claims : List Claim) (workerId : String) (hrs : ℚ) (d : ℤ) : ℚ :=
  let recent := recentClaims claims workerId d
  let avgHours : ℚ :=
    if recent.length = 0 then hrs else (recent.map Claim.hours).sum / (recent.length : ℚ)
  (if 14 < hrs then (0.4 : ℚ) else 0) +
  (if 16 < hrs then (0.35 : ℚ) else 0) +
  (if avgHours * 1.8 < hrs ∧ 3 ≤ recent.length then (0.25 : ℚ) else 0) +
  (if 5 ≤ sameHoursCount claims workerId hrs d then (0.2 : ℚ) else 0)

/-- SELECT * FROM work_claims WHERE id = ? (first row). -/
def findClaim (st : ServerState) (cid : String) : Option Claim :=
  st.claims.find? (fun c => c.id == cid)

/-- SELECT * FROM workers WHERE id = ? (first row). -/
def findWorker (st : ServerState) (wid : String) : Option Worker :=
  st.workers.find? (fun w => w.id == wid)

/-- SELECT COUNT from verifications WHERE claim_id = ? AND is_valid = 1. -/
def validCount (vs : List Verification) (cid : String) : ℕ :=
  (vs.filter (fun v => v.claim_id == cid && v.is_valid)).length

/-- All recorded attestations of one claim (valid or not). -/
def attsFor (st : ServerState) (cid : String) : List Verification :=
  st.verifications.filter (fun v => v.claim_id == cid)

/-- Body of POST /api/claims success response. -/
structure SubmitResult where
  claim_id : String
  date : ℤ
  hours : ℚ
  status : ClaimStatus
  anomaly_score : ℚ
deriving DecidableEq

/-- The POST /api/claims handler.  newClaimId and flagId stand for the random
ids the handler generates, createdMin for the row's creation minute.  The
`!hours` JS truthiness test holds exactly when hours = 0 (a missing field is
modelled as 0). -/
def submitClaim (st : ServerState) (workerId : String) (hrs : ℚ) (task : String)
    (date createdMin : ℤ) (newClaimId flagId : String) :
    Except ApiError SubmitResult × ServerState :=
  if hrs = 0 ∨ task = "" then (.error .missingFields, st)
  else if 16 < hrs then (.error .hoursTooHigh, st)
  else if st.claims.any (fun c => c.worker_id == workerId && c.date == date) then
    (.error .duplicateClaim, st)
  else
    let a := calcAnomalyScore st.claims workerId hrs date
    let claim : Claim :=
      ⟨newClaimId, workerId, date, hrs, task, .pending, a, none, none, none, createdMin⟩
    let st1 : ServerState := { st with claims := st.claims ++ [claim] }
    let st2 : ServerState :=
      if 0.65 < a then
        { st1 with flags := st1.flags ++ [⟨flagId, newClaimId, "suspicious_hours", a, false⟩] }
      else st1
    (.ok ⟨newClaimId, date, hrs, .pending, a⟩, st2)

/-- Body of POST /api/verify success response (tx and ipfs fields are present
only in the sealed variant). -/
structure VerifyResult where
  verification_id : String
  claim_sealed : Bool
  verifications_so_far : ℕ
  tx_hash : Option String
  ipfs_hash : Option String
deriving DecidableEq

/-- The GPS gate: `gps_distance_m && gps_distance_m > 500` (a 0 distance is
falsy in JS, but 0 > 500 is false anyway, so the two readings agree). -/
def gpsTooFar : Option ℚ → Bool
  | some g => decide (500 < g)
  | none => false

/-- UPDATE workers SET verification_depth = verification_depth + 1. -/
def bumpDepth (w : Worker) : Worker :=
  { w with verification_depth := w.verification_depth + 1 }

/-- UPDATE workers SET total_days_worked = total_days_worked + 1,
reputation_score = MIN(100, reputation_score + 0.5). -/
def sealOwner (w : Worker) : Worker :=
  { w with total_days_worked := w.total_days_worked + 1,
           reputation_score := min 100 (w.reputation_score + 0.5) }

/-- UPDATE work_claims SET status = 'verified', tx_hash, ipfs_hash,
block_number on one claim row. -/
def sealClaimRec (tx ip : String) (bn : ℤ) (c : Claim) : Claim :=
  { c with status := .verified, tx_hash := some tx, ipfs_hash := some ip,
           block_number := some bn }

/-- State after the INSERT INTO verifications plus the verifier depth bump. -/
def insertVerifState (st : ServerState) (v : Verification) (verifierId : String) :
    ServerState :=
  { st with verifications := st.verifications ++ [v],
            workers := st.workers.map (fun w => if w.id == verifierId then bumpDepth w else w) }

/-- State after the two sealing UPDATEs (claim row and owner row). -/
def sealState (st : ServerState) (claimId ownerId tx ip : String) (bn : ℤ) : ServerState :=
  { st with
      claims := st.claims.map (fun c => if c.id == claimId then sealClaimRec tx ip bn c else c),
      workers := st.workers.map (fun w => if w.id == ownerId then sealOwner w else w) }

/-- The POST /api/verify handler.  newVerifId, sig, txHash, ipfsHash and
blockNum stand for the random values the handler generates. -/
def verifyApi (st : ServerState) (verifierId claimId : String) (gps : Option ℚ)
    (newVerifId sig txHash ipfsHash : String) (blockNum : ℤ) :
    Except ApiError VerifyResult × ServerState :=
  match findClaim st claimId with
  | none => (.error .claimNotFound, st)
  | some claim =>
    if claim.worker_id = verifierId then (.error .selfVerification, st)
    else if claim.status = .verified then (.error .alreadySealed, st)
    else if st.verifications.any
        (fun v => v.claim_id == claimId && v.verifier_id == verifierId) then
      (.error .duplicateVerification, st)
    else if gpsTooFar gps then (.error .gpsTooFar, st)
    else
      let v : Verification := ⟨newVerifId, claimId, verifierId, sig, gps, true⟩
      let st1 := insertVerifState st v verifierId
      let cnt := validCount st1.verifications claimId
      if 3 ≤ cnt then
        let st2 := sealState st1 claimId claim.worker_id txHash ipfsHash blockNum
        (.ok ⟨newVerifId, true, cnt, some txHash, some ipfsHash⟩, st2)
      else
        (.ok ⟨newVerifId, false, cnt, none, none⟩, st1)

/-- calcCreditScore from server.js (round is JS Math.round: half away from
zero on positives, which Mathlib's round matches on the values reached). -/
def calcCreditScore (months peers hrs : ℚ) : ℤ :=
  min 850 (round (months * 4.5 + min peers 10 * 15 + min hrs 40 * 2.5 + 300))

/-- Body of POST /api/finance/credit success response. -/
structure CreditResult where
  report_id : String
  score : ℤ
  tier : String
  max_loan_usd : ℤ
  months_on_chain : ℤ
deriving DecidableEq

/-- The POST /api/finance/credit handler.  reportId stands for the random id. -/
def creditApi (st : ServerState) (workerId reportId : String) :
    Except ApiError CreditResult × ServerState :=
  match findWorker st workerId with
  | none => (.error .workerNotFound, st)
  | some worker =>
    let verifiedClaims :=
      st.claims.filter (fun c => c.worker_id == workerId && decide (c.status = .verified))
    if verifiedClaims.length = 0 then (.error .noVerifiedClaims, st)
    else
      let months : ℤ := max 1 (round ((worker.total_days_worked : ℚ) / 22))
      let avgHrs : ℚ := (verifiedClaims.map Claim.hours).sum / (verifiedClaims.length : ℚ)
      let weeklyHrs := avgHrs * 5
      let peerCounts := verifiedClaims.map (fun c => (attsFor st c.id).length)
      let avgPeers : ℚ :=
        (peerCounts.map (fun n => (n : ℚ))).sum / (peerCounts.length : ℚ)
      let score := calcCreditScore (months : ℚ) avgPeers weeklyHrs
      let tier := if 720 < score then "PRIME" else if 580 < score then "STANDARD" else "EMERGING"
      let maxLoan : ℤ := round ((score : ℚ) * (months : ℚ) * 2.8)
      let report : CreditReport :=
        ⟨reportId, workerId, score, tier, maxLoan, months, avgPeers, weeklyHrs⟩
      (.ok ⟨reportId, score, tier, maxLoan, months⟩,
        { st with reports := st.reports ++ [report] })

/-- One flag in the POST /api/ai/scan response. -/
structure ScanFlag where
  kind : String
  risk : String
  score : ℚ
  entity : String
deriving DecidableEq

/-- Scan signal 1: claims with hours > 16 (the SQL joins workers, so claims of
an unknown worker are skipped), fixed risk label "high", score 0.92.  This
models the invocation without a region filter. -/
def impossibleHoursFlags (st : ServerState) : List ScanFlag :=
  (st.claims.filter
      (fun c => decide (16 < c.hours) && st.workers.any (fun w => w.id == c.worker_id))).map
    (fun c => ⟨"impossible_hours", "high", 0.92, c.id⟩)

/-- Distinct (claim, owner) pairs one verifier has attested (the DISTINCT
join in the clique query; the join drops verifications of unknown claims). -/
def cliquePairs (st : ServerState) (verifierId : String) : List (String × String) :=
  ((st.verifications.filter (fun v => v.verifier_id == verifierId)).filterMap
    (fun v => (findClaim st v.claim_id).map (fun c => (v.claim_id, c.worker_id)))).dedup

/-- Scan signal 2: a verifier all of whose attestations target one single
owner, with at least 5 of them, risk label "high", score 0.87. -/
def cliqueFlags (st : ServerState) : List ScanFlag :=
  ((st.verifications.map Verification.verifier_id).dedup).filterMap (fun vid =>
    let pairs := cliquePairs st vid
    if ((pairs.map Prod.snd).dedup).length = 1 ∧ 5 ≤ pairs.length then
      some ⟨"clique", "high", 0.87, vid⟩
    else none)

/-- Scan signal 3: any creation-minute bucket holding at least 4 claims,
risk label "medium", score 0.71. -/
def timestampFlags (st : ServerState) : List ScanFlag :=
  ((st.claims.map Claim.created_min).dedup).filterMap (fun m =>
    let cnt := (st.claims.filter (fun c => c.created_min == m)).length
    if 4 ≤ cnt then some ⟨"timestamp_cluster", "medium", 0.71, toString m⟩ else none)

/-- Scan step 4: merge the top 10 unresolved stored flags, labelled "high"
exactly when their stored risk score exceeds 0.7. -/
def dbFlagScan (st : ServerState) : List ScanFlag :=
  ((sortDescBy AnomalyFlag.risk_score (st.flags.filter (fun f => !f.resolved))).take 10).map
    (fun f => ⟨f.anomaly_type, if 0.7 < f.risk_score then "high" else "medium",
               f.risk_score, f.flagged_entity⟩)

/-- The flag list assembled by POST /api/ai/scan. -/
def scanFlags (st : ServerState) : List ScanFlag :=
  impossibleHoursFlags st ++ cliqueFlags st ++ timestampFlags st ++ dbFlagScan st

/-- The summary object of the scan response. -/
structure ScanSummary where
  total : ℕ
  high : ℕ
  medium : ℕ
  low : ℕ
deriving DecidableEq

/-- total/high/medium/low as computed by the scan handler: high and medium
count risk labels, low is the remainder. -/
def scanSummary (st : ServerState) : ScanSummary :=
  let flags := scanFlags st
  let high := (flags.filter (fun f => f.risk == "high")).length
  let med := (flags.filter (fun f => f.risk == "medium")).length
  ⟨flags.length, high, med, flags.length - high - med⟩

/-- One mutating backend call.  The freshness hypothesis on submit models the
work_claims PRIMARY KEY: the 128-bit random id of a successful INSERT cannot
collide with an existing row. -/
inductive Step : ServerState → ServerState → Prop
  | submit (st : ServerState) (workerId : String) (hrs : ℚ) (task : String)
      (date createdMin : ℤ) (newClaimId flagId : String)
      (hfresh : newClaimId ∉ st.claims.map Claim.id) :
      Step st (submitClaim st workerId hrs task date createdMin newClaimId flagId).2
  | attest (st : ServerState) (verifierId claimId : String) (gps : Option ℚ)
      (newVerifId sig txHash ipfsHash : String) (blockNum : ℤ) :
      Step st (verifyApi st verifierId claimId gps newVerifId sig txHash ipfsHash blockNum).2

/-- States reachable from the empty database by submit and attest calls. -/
def Reachable (st : ServerState) : Prop :=
  Relation.ReflTransGen Step emptyState st

/-- Number of claims stored for one (participant, date) key. -/
def countKey (st : ServerState) (w : String) (d : ℤ) : ℕ :=
  (st.claims.filter (fun c => c.worker_id == w && c.date == d)).length

/-- The inductive invariant of the claim ledger: claim ids are unique, the
(worker, date) key is unique, every verification row is valid and references
a stored claim, and every claim is either verified with exactly 3 valid
attestations or pending with at most 2 and no settlement fields. -/
def Inv (st : ServerState) : Prop :=
  st.claims.Pairwise (fun a b => a.id ≠ b.id) ∧
  st.claims.Pairwise (fun a b => ¬(a.worker_id = b.worker_id ∧ a.date = b.date)) ∧
  (∀ v ∈ st.verifications, v.is_valid = true ∧ v.claim_id ∈ st.claims.map Claim.id) ∧
  (∀ c ∈ st.claims,
    (c.status = .verified ∧ validCount st.verifications c.id = 3) ∨
    (c.status = .pending ∧ validCount st.verifications c.id ≤ 2 ∧
     c.tx_hash = none ∧ c.ipfs_hash = none ∧ c.block_number = none))

deriving instance DecidableEq for Except

set_option maxRecDepth 8000

/-! ### Concrete sample states used to instantiate the theorems -/

/-- The pending claim row created by submitting (w1, date 0, 8 hours) to the
empty database. -/
def claimW1 : Claim := ⟨"c1", "w1", 0, 8, "task one", .pending, 0, none, none, none, 0⟩

/-- The same claim row once sealed by a third attestation. -/
def claimW4 : Claim :=
  ⟨"c1", "w1", 0, 8, "task one", .verified, 0, some "tx3", some "ip3", some 7, 0⟩

/-- State after one submit on the empty database. -/
def wit1 : ServerState := ⟨[], [claimW1], [], [], []⟩

/-- ... then an attestation by w2. -/
def wit2 : ServerState := ⟨[], [claimW1], [⟨"v1", "c1", "w2", "s1", none, true⟩], [], []⟩

/-- ... then an attestation by w3. -/
def wit3 : ServerState :=
  ⟨[], [claimW1],
   [⟨"v1", "c1", "w2", "s1", none, true⟩, ⟨"v2", "c1", "w3", "s2", none, true⟩], [], []⟩

/-- ... then an attestation by w4, which brings the valid count to 3 and
seals the claim. -/
def wit4 : ServerState :=
  ⟨[], [claimW4],
   [⟨"v1", "c1", "w2", "s1", none, true⟩, ⟨"v2", "c1", "w3", "s2", none, true⟩,
    ⟨"v3", "c1", "w4", "s3", none, true⟩], [], []⟩

/-- A database holding a claim stored with Rejected status (the backend never
writes this status itself, but the schema and the contract represent it). -/
def stRej : ServerState :=
  ⟨[⟨"w1", 50, 0, 0⟩, ⟨"w2", 50, 0, 0⟩],
   [⟨"c1", "w1", 0, 8, "task one", .rejected, 0, none, none, none, 0⟩], [], [], []⟩

/-- Two registered workers and one pending claim of w1. -/
def stC6 : ServerState :=
  ⟨[⟨"w1", 50, 0, 0⟩, ⟨"w2", 50, 0, 0⟩],
   [⟨"c1", "w1", 0, 8, "task one", .pending, 0, none, none, none, 0⟩], [], [], []⟩

/-- Four registered workers, one pending claim of w1 that already carries two
valid attestations (by w2 and w3): the next attestation will seal it. -/
def stC2 : ServerState :=
  ⟨[⟨"w1", 50, 0, 0⟩, ⟨"w2", 50, 0, 0⟩, ⟨"w3", 50, 0, 0⟩, ⟨"w4", 50, 0, 0⟩],
   [⟨"c1", "w1", 0, 8, "task one", .pending, 0, none, none, none, 0⟩],
   [⟨"v1", "c1", "w2", "s1", none, true⟩, ⟨"v2", "c1", "w3", "s2", none, true⟩], [], []⟩

/-- Four claims created in the same minute bucket: the batch scan emits one
timestamp-clustering flag for it. -/
def stTS : ServerState :=
  ⟨[], [⟨"c1", "w1", 0, 8, "t", .pending, 0, none, none, none, 0⟩,
        ⟨"c2", "w2", 1, 8, "t", .pending, 0, none, none, none, 0⟩,
        ⟨"c3", "w3", 2, 8, "t", .pending, 0, none, none, none, 0⟩,
        ⟨"c4", "w4", 3, 8, "t", .pending, 0, none, none, none, 0⟩], [], [], []⟩

/-! ### General helper lemmas -/

theorem validCount_append (vs : List Verification) (v : Verification) (cid : String) :
    validCount (vs ++ [v]) cid =
      validCount vs cid + (if v.claim_id == cid && v.is_valid then 1 else 0) := by
  unfold validCount
  cases h : (v.claim_id == cid && v.is_valid) <;>
    simp [List.filter_append, List.filter_cons, h]

theorem validCount_eq_zero {vs : List Verification} {cid : String}
    (h : ∀ v ∈ vs, ¬(v.claim_id = cid)) : validCount vs cid = 0 := by
  unfold validCount
  rw [List.length_eq_zero, List.filter_eq_nil_iff]
  intro v hv
  simp [h v hv]

theorem find?_map_pres {α : Type} (f : α → α) (p : α → Bool) (hf : ∀ a, p (f a) = p a)
    (l : List α) : (l.map f).find? p = (l.find? p).map f := by
  induction l with
  | nil => rfl
  | cons a t ih => cases h : p a <;> simp [List.find?_cons, hf, h, ih]

theorem map_comp_of_pres {α β : Type} (f : α → α) (g : α → β) (hf : ∀ a, g (f a) = g a)
    (l : List α) : (l.map f).map g = l.map g := by
  rw [List.map_map]
  exact List.map_congr_left (fun a _ => hf a)

theorem eq_of_mem_pairwise_ne {l : List Claim}
    (hp : l.Pairwise (fun a b => a.id ≠ b.id)) {a b : Claim}
    (ha : a ∈ l) (hb : b ∈ l) (hid : a.id = b.id) : a = b := by
  induction l with
  | nil => cases ha
  | cons x t ih =>
    rcases List.pairwise_cons.mp hp with ⟨hx, ht⟩
    rcases List.mem_cons.mp ha with rfl | ha'
    · rcases List.mem_cons.mp hb with rfl | hb'
      · rfl
      · exact absurd hid (hx _ hb')
    · rcases List.mem_cons.mp hb with rfl | hb'
      · exact absurd hid.symm (hx _ ha')
      · exact ih ht ha' hb'

theorem find?_eq_some_of_mem {l : List Claim}
    (hp : l.Pairwise (fun a b => a.id ≠ b.id)) {c : Claim} (hc : c ∈ l) :
    l.find? (fun x => x.id == c.id) = some c := by
  induction l with
  | nil => cases hc
  | cons x t ih =>
    rcases List.pairwise_cons.mp hp with ⟨hx, ht⟩
    rcases List.mem_cons.mp hc with rfl | hc'
    · simp [List.find?_cons]
    · have hne : ¬(x.id == c.id) = true := by
        simpa using hx _ hc'
      simp [List.find?_cons, hne, ih ht hc']

theorem filter_split_length {α : Type} (p q : α → Bool) (l : List α)
    (h : ∀ a ∈ l, (p a = true ∨ q a = true) ∧ ¬(p a = true ∧ q a = true)) :
    (l.filter p).length + (l.filter q).length = l.length := by
  induction l with
  | nil => simp
  | cons a t ih =>
    have ha := h a (by simp)
    have ht := ih (fun x hx => h x (by simp [hx]))
    cases hp : p a <;> cases hq : q a <;>
      simp only [List.filter_cons, hp, hq, List.length_cons, if_true, if_false,
        cond_true, cond_false] <;> simp_all <;> omega

/-! ### The ledger invariant and its preservation -/

theorem validCount_append_ne (vs : List Verification) (v : Verification) (cid : String)
    (h : ¬(v.claim_id = cid)) : validCount (vs ++ [v]) cid = validCount vs cid := by
  rw [validCount_append]
  simp [h]

theorem inv_empty : Inv emptyState := by
  refine ⟨List.Pairwise.nil, List.Pairwise.nil, ?_, ?_⟩ <;> intro x hx <;> cases hx

theorem findClaim_mem {st : ServerState} {cid : String} {claim : Claim}
    (hf : findClaim st cid = some claim) : claim ∈ st.claims ∧ claim.id = cid := by
  unfold findClaim at hf
  refine ⟨List.mem_of_find?_eq_some hf, ?_⟩
  have := List.find?_some hf
  simpa using this

theorem findWorker_mem {st : ServerState} {wid : String} {w : Worker}
    (hf : findWorker st wid = some w) : w ∈ st.workers ∧ w.id = wid := by
  unfold findWorker at hf
  refine ⟨List.mem_of_find?_eq_some hf, ?_⟩
  have := List.find?_some hf
  simpa using this

theorem inv_append_claim (st : ServerState) (c : Claim) (fl : List AnomalyFlag)
    (hfresh : c.id ∉ st.claims.map Claim.id)
    (hkey : ∀ x ∈ st.claims, ¬(x.worker_id = c.worker_id ∧ x.date = c.date))
    (hst : c.status = .pending) (htx : c.tx_hash = none) (hip : c.ipfs_hash = none)
    (hbn : c.block_number = none) (hinv : Inv st) :
    Inv ⟨st.workers, st.claims ++ [c], st.verifications, fl, st.reports⟩ := by
  obtain ⟨h1, h2, h3, h4⟩ := hinv
  refine ⟨?_, ?_, ?_, ?_⟩ <;> dsimp only
  · rw [List.pairwise_append]
    refine ⟨h1, by simp, ?_⟩
    intro a ha b hb
    simp only [List.mem_singleton] at hb
    subst hb
    intro hcontra
    exact hfresh (hcontra ▸ List.mem_map_of_mem Claim.id ha)
  · rw [List.pairwise_append]
    refine ⟨h2, by simp, ?_⟩
    intro a ha b hb
    simp only [List.mem_singleton] at hb
    subst hb
    exact hkey a ha
  · intro v hv
    obtain ⟨hval, hmemv⟩ := h3 v hv
    exact ⟨hval, by
      simp only [List.map_append, List.map_cons, List.map_nil]
      exact List.mem_append.mpr (Or.inl hmemv)⟩
  · intro x hx
    rcases List.mem_append.mp hx with hx' | hx'
    · exact h4 x hx'
    · simp only [List.mem_singleton] at hx'
      subst hx'
      right
      refine ⟨hst, ?_, htx, hip, hbn⟩
      have hz : validCount st.verifications x.id = 0 := by
        apply validCount_eq_zero
        intro v hv hcl
        obtain ⟨_, hmemv⟩ := h3 v hv
        exact hfresh (hcl ▸ hmemv)
      omega

theorem submit_preserves_inv (st : ServerState) (workerId : String) (hrs : ℚ) (task : String)
    (date createdMin : ℤ) (newClaimId flagId : String)
    (hfresh : newClaimId ∉ st.claims.map Claim.id) (hinv : Inv st) :
    Inv (submitClaim st workerId hrs task date createdMin newClaimId flagId).2 := by
  have hinv' := hinv
  obtain ⟨h1, h2, h3, h4⟩ := hinv
  simp only [submitClaim]
  split_ifs with hmf hhi hdup hflag
  · exact hinv'
  · exact hinv'
  · exact hinv'
  all_goals {
    refine inv_append_claim st _ _ hfresh ?_ rfl rfl rfl rfl hinv'
    intro x hx hcontra
    apply hdup
    rw [List.any_eq_true]
    exact ⟨x, hx, by simp [hcontra.1, hcontra.2]⟩ }

theorem inv_seal (st : ServerState) (claim : Claim) (vnew : Verification) (cid tx ip : String)
    (bn : ℤ) (w2 : List Worker)
    (hinv : Inv st) (hmem : claim ∈ st.claims) (hid : claim.id = cid)
    (hpend : claim.status = .pending)
    (hv_claim : vnew.claim_id = cid) (hv_valid : vnew.is_valid = true)
    (hcnt : validCount (st.verifications ++ [vnew]) cid = 3) :
    Inv ⟨w2, st.claims.map (fun c => if c.id == cid then sealClaimRec tx ip bn c else c),
         st.verifications ++ [vnew], st.flags, st.reports⟩ := by
  obtain ⟨h1, h2, h3, h4⟩ := hinv
  have hfid : ∀ c : Claim, (if c.id == cid then sealClaimRec tx ip bn c else c).id = c.id := by
    intro c; split <;> rfl
  have hfw : ∀ c : Claim,
      (if c.id == cid then sealClaimRec tx ip bn c else c).worker_id = c.worker_id := by
    intro c; split <;> rfl
  have hfd : ∀ c : Claim, (if c.id == cid then sealClaimRec tx ip bn c else c).date = c.date := by
    intro c; split <;> rfl
  refine ⟨?_, ?_, ?_, ?_⟩ <;> dsimp only
  · rw [List.pairwise_map]
    exact h1.imp (fun hab => by rw [hfid, hfid]; exact hab)
  · rw [List.pairwise_map]
    exact h2.imp (fun hab => by rw [hfw, hfw, hfd, hfd]; exact hab)
  · intro v hv
    rcases List.mem_append.mp hv with hv' | hv'
    · obtain ⟨hval, hmemv⟩ := h3 v hv'
      refine ⟨hval, ?_⟩
      rw [map_comp_of_pres _ _ hfid]
      exact hmemv
    · simp only [List.mem_singleton] at hv'
      subst hv'
      refine ⟨hv_valid, ?_⟩
      rw [map_comp_of_pres _ _ hfid, hv_claim, ← hid]
      exact List.mem_map_of_mem _ hmem
  · intro x hx
    rcases List.mem_map.mp hx with ⟨c, hc, rfl⟩
    by_cases hcid : c.id = cid
    · have hceq : c = claim := eq_of_mem_pairwise_ne h1 hc hmem (by rw [hcid, hid])
      subst hceq
      left
      have hbeq : (c.id == cid) = true := by simpa using hcid
      constructor
      · simp [hbeq, sealClaimRec]
      · rw [hfid, hcid]
        exact hcnt
    · have hbeq : (c.id == cid) = false := by simpa using hcid
      rw [if_neg (by simp [hbeq])] at hx ⊢
      have hcount : validCount (st.verifications ++ [vnew]) c.id = validCount st.verifications c.id :=
        validCount_append_ne _ _ _ (by rw [hv_claim]; exact fun h => hcid h.symm)
      rcases h4 c hc with ⟨hst, hc3⟩ | ⟨hst, hc2, ht, hi, hb⟩
      · exact Or.inl ⟨hst, by rw [hcount]; exact hc3⟩
      · exact Or.inr ⟨hst, by rw [hcount]; exact hc2, ht, hi, hb⟩

theorem inv_noseal (st : ServerState) (claim : Claim) (vnew : Verification) (cid : String)
    (w2 : List Worker)
    (hinv : Inv st) (hmem : claim ∈ st.claims) (hid : claim.id = cid)
    (hpend : claim.status = .pending)
    (hv_claim : vnew.claim_id = cid) (hv_valid : vnew.is_valid = true)
    (hcnt : validCount (st.verifications ++ [vnew]) cid ≤ 2) :
    Inv ⟨w2, st.claims, st.verifications ++ [vnew], st.flags, st.reports⟩ := by
  obtain ⟨h1, h2, h3, h4⟩ := hinv
  refine ⟨h1, h2, ?_, ?_⟩ <;> dsimp only
  · intro v hv
    rcases List.mem_append.mp hv with hv' | hv'
    · exact h3 v hv'
    · simp only [List.mem_singleton] at hv'
      subst hv'
      refine ⟨hv_valid, ?_⟩
      rw [hv_claim, ← hid]
      exact List.mem_map_of_mem _ hmem
  · intro x hx
    by_cases hcid : x.id = cid
    · have hceq : x = claim := eq_of_mem_pairwise_ne h1 hx hmem (by rw [hcid, hid])
      subst hceq
      rcases h4 x hx with ⟨hst, _⟩ | ⟨hst, _, ht, hi, hb⟩
      · rw [hst] at hpend; cases hpend
      · exact Or.inr ⟨hst, by rw [hcid]; exact hcnt, ht, hi, hb⟩
    · have hcount : validCount (st.verifications ++ [vnew]) x.id = validCount st.verifications x.id :=
        validCount_append_ne _ _ _ (by rw [hv_claim]; exact fun h => hcid h.symm)
      rcases h4 x hx with ⟨hst, hc3⟩ | ⟨hst, hc2, ht, hi, hb⟩
      · exact Or.inl ⟨hst, by rw [hcount]; exact hc3⟩
      · exact Or.inr ⟨hst, by rw [hcount]; exact hc2, ht, hi, hb⟩

theorem attest_preserves_inv (st : ServerState) (verifierId claimId : String) (gps : Option ℚ)
    (newVerifId sig txHash ipfsHash : String) (blockNum : ℤ) (hinv : Inv st) :
    Inv (verifyApi st verifierId claimId gps newVerifId sig txHash ipfsHash blockNum).2 := by
  have hinv' := hinv
  obtain ⟨h1, h2, h3, h4⟩ := hinv
  simp only [verifyApi]
  cases hf : findClaim st claimId
  · exact hinv'
  case some claim =>
    obtain ⟨hmem, hid⟩ := findClaim_mem hf
    dsimp only
    split_ifs with hself hver hdup hgps hcnt
    · exact hinv'
    · exact hinv'
    · exact hinv'
    · exact hinv'
    · -- sealing branch
      have hpend : claim.status = .pending := by
        rcases h4 claim hmem with ⟨hst, _⟩ | ⟨hst, _⟩
        · exact absurd hst hver
        · exact hst
      have hcle : validCount st.verifications claimId ≤ 2 := by
        rcases h4 claim hmem with ⟨hst, _⟩ | ⟨_, hc2, _⟩
        · exact absurd hst hver
        · rw [← hid]; exact hc2
      have hvapp : validCount
          (insertVerifState st ⟨newVerifId, claimId, verifierId, sig, gps, true⟩
            verifierId).verifications claimId =
          validCount st.verifications claimId + 1 := by
        simp only [insertVerifState]
        rw [validCount_append]
        simp
      rw [hvapp] at hcnt
      have hc3 : validCount (st.verifications ++
          [⟨newVerifId, claimId, verifierId, sig, gps, true⟩]) claimId = 3 := by
        rw [validCount_append]
        simp only [beq_self_eq_true, Bool.true_and, if_pos]
        omega
      have hgoal := inv_seal st claim ⟨newVerifId, claimId, verifierId, sig, gps, true⟩
        claimId txHash ipfsHash blockNum
        (((insertVerifState st ⟨newVerifId, claimId, verifierId, sig, gps, true⟩
          verifierId).workers).map
          (fun w => if w.id == claim.worker_id then sealOwner w else w))
        hinv' hmem hid hpend rfl rfl hc3
      rw [hvapp]
      exact hgoal
    · -- non-sealing branch
      have hpend : claim.status = .pending := by
        rcases h4 claim hmem with ⟨hst, _⟩ | ⟨hst, _⟩
        · exact absurd hst hver
        · exact hst
      have hvapp : validCount
          (insertVerifState st ⟨newVerifId, claimId, verifierId, sig, gps, true⟩
            verifierId).verifications claimId =
          validCount st.verifications claimId + 1 := by
        simp only [insertVerifState]
        rw [validCount_append]
        simp
      rw [hvapp] at hcnt
      have hc2 : validCount (st.verifications ++
          [⟨newVerifId, claimId, verifierId, sig, gps, true⟩]) claimId ≤ 2 := by
        rw [validCount_append]
        simp only [beq_self_eq_true, Bool.true_and, if_pos]
        omega
      exact inv_noseal st claim ⟨newVerifId, claimId, verifierId, sig, gps, true⟩ claimId
        ((st.workers).map (fun w => if w.id == verifierId then bumpDepth w else w))
        hinv' hmem hid hpend rfl rfl hc2

theorem reachable_inv {st : ServerState} (h : Reachable st) : Inv st := by
  induction h with
  | refl => exact inv_empty
  | @tail b c hr hstep ih =>
    cases hstep with
    | submit workerId hrs task date createdMin newClaimId flagId hfresh =>
      exact submit_preserves_inv b workerId hrs task date createdMin newClaimId flagId hfresh ih
    | attest verifierId claimId gps newVerifId sig txHash ipfsHash blockNum =>
      exact attest_preserves_inv b verifierId claimId gps newVerifId sig txHash ipfsHash blockNum ih

/-! ### Claim C7 -/

/-- C7: the per-submission anomaly score is the additive four-signal
heuristic: +0.40 for hours > 14, +0.35 for hours > 16, +0.25 for a sudden
deviation against at least 3 trailing-7-day claims (last 10), +0.20 when the
identical hours value appears 5 or more times in the trailing 14 days; the
accumulated value is capped at 1.0 and always lies in [0, 1].  Determinism
holds because calcAnomalyScore is a pure function of the submitted values and
the historical claim list (its embedding takes no oracle arguments). -/
theorem C7_anomaly_score_additive (claims : List Claim) (workerId : String) (hrs : ℚ) (d : ℤ) :
    calcAnomalyScore claims workerId hrs d = min (anomalySignalSum claims workerId hrs d) 1 ∧
    0 ≤ calcAnomalyScore claims workerId hrs d ∧
    calcAnomalyScore claims workerId hrs d ≤ 1 := by
  simp only [calcAnomalyScore, anomalySignalSum]
  split_ifs <;> norm_num

/-! ### Claim C9 -/

/-- C9: failure atomicity — whenever a submit, attest or credit-report call
returns an error of any kind, the database state after the call is exactly
the state before it (no record created or modified). -/
theorem C9_failure_atomicity (st : ServerState) :
    (∀ workerId hrs task date createdMin newClaimId flagId e,
      (submitClaim st workerId hrs task date createdMin newClaimId flagId).1 = .error e →
      (submitClaim st workerId hrs task date createdMin newClaimId flagId).2 = st) ∧
    (∀ verifierId claimId gps newVerifId sig txHash ipfsHash blockNum e,
      (verifyApi st verifierId claimId gps newVerifId sig txHash ipfsHash blockNum).1 = .error e →
      (verifyApi st verifierId claimId gps newVerifId sig txHash ipfsHash blockNum).2 = st) ∧
    (∀ workerId reportId e,
      (creditApi st workerId reportId).1 = .error e →
      (creditApi st workerId reportId).2 = st) := by
  refine ⟨?_, ?_, ?_⟩
  · intro workerId hrs task date createdMin newClaimId flagId e h
    simp only [submitClaim] at h ⊢
    split_ifs at h ⊢ <;> simp_all
  · intro verifierId claimId gps newVerifId sig txHash ipfsHash blockNum e h
    simp only [verifyApi] at h ⊢
    cases hf : findClaim st claimId
    · rfl
    · dsimp only at h ⊢
      split_ifs at h ⊢ <;> simp_all
  · intro workerId reportId e h
    simp only [creditApi] at h ⊢
    cases hf : findWorker st workerId
    · rfl
    · dsimp only at h ⊢
      split_ifs at h ⊢ <;> simp_all

/-! ### Success-path characterization of attest, and sample-state facts -/

theorem verifyApi_ok (st : ServerState) (verifierId claimId : String) (gps : Option ℚ)
    (newVerifId sig txHash ipfsHash : String) (blockNum : ℤ) (claim : Claim)
    (hfind : findClaim st claimId = some claim)
    (hself : ¬claim.worker_id = verifierId)
    (hver : ¬claim.status = ClaimStatus.verified)
    (hdup : (st.verifications.any
        (fun v => v.claim_id == claimId && v.verifier_id == verifierId)) = false)
    (hgps : gpsTooFar gps = false) :
    verifyApi st verifierId claimId gps newVerifId sig txHash ipfsHash blockNum =
      (if 3 ≤ validCount st.verifications claimId + 1 then
        (.ok ⟨newVerifId, true, validCount st.verifications claimId + 1,
              some txHash, some ipfsHash⟩,
         sealState (insertVerifState st ⟨newVerifId, claimId, verifierId, sig, gps, true⟩
           verifierId) claimId claim.worker_id txHash ipfsHash blockNum)
      else
        (.ok ⟨newVerifId, false, validCount st.verifications claimId + 1, none, none⟩,
         insertVerifState st ⟨newVerifId, claimId, verifierId, sig, gps, true⟩ verifierId)) := by
  have hvapp : validCount
      (insertVerifState st ⟨newVerifId, claimId, verifierId, sig, gps, true⟩
        verifierId).verifications claimId =
      validCount st.verifications claimId + 1 := by
    simp only [insertVerifState]
    rw [validCount_append]
    simp
  simp only [verifyApi]
  rw [hfind]
  dsimp only
  rw [if_neg hself, if_neg hver, hdup, hgps]
  simp only [Bool.false_eq_true, if_false, hvapp]

theorem submit_wit1 : (submitClaim emptyState "w1" 8 "task one" 0 0 "c1" "f1").2 = wit1 := by
  with_unfolding_all decide

theorem attest_wit2 : (verifyApi wit1 "w2" "c1" none "v1" "s1" "tx1" "ip1" 48001).2 = wit2 := by
  with_unfolding_all decide

theorem attest_wit3 : (verifyApi wit2 "w3" "c1" none "v2" "s2" "tx2" "ip2" 48002).2 = wit3 := by
  with_unfolding_all decide

theorem attest_wit4 : (verifyApi wit3 "w4" "c1" none "v3" "s3" "tx3" "ip3" 7).2 = wit4 := by
  with_unfolding_all decide

theorem reach_wit1 : Reachable wit1 := by
  rw [← submit_wit1]
  exact Relation.ReflTransGen.single
    (Step.submit emptyState "w1" 8 "task one" 0 0 "c1" "f1" (by simp [emptyState]))

theorem reach_wit2 : Reachable wit2 := by
  rw [← attest_wit2]
  exact reach_wit1.tail (Step.attest wit1 "w2" "c1" none "v1" "s1" "tx1" "ip1" 48001)

theorem reach_wit3 : Reachable wit3 := by
  rw [← attest_wit3]
  exact reach_wit2.tail (Step.attest wit2 "w3" "c1" none "v2" "s2" "tx2" "ip2" 48002)

theorem reach_wit4 : Reachable wit4 := by
  rw [← attest_wit4]
  exact reach_wit3.tail (Step.attest wit3 "w4" "c1" none "v3" "s3" "tx3" "ip3" 7)

/-! ### Claims C4, C5, C6 -/

/-- C4 amended: attest on a claim whose status is Verified fails with
AlreadySealed and leaves the whole database unchanged (no attestation
recorded, no counter or status changes).  The backend performs no check for
a Rejected status — only the on-chain contract rejects such a call with
ClaimRejected — and the counterexample shows the backend processing an
attest on a stored Rejected claim like one on a Pending claim. -/
theorem C4_attest_terminal_claim (st : ServerState) (verifierId claimId : String)
    (gps : Option ℚ) (newVerifId sig txHash ipfsHash : String) (blockNum : ℤ) (claim : Claim)
    (hfind : findClaim st claimId = some claim)
    (hself : ¬claim.worker_id = verifierId)
    (hver : claim.status = ClaimStatus.verified) :
    verifyApi st verifierId claimId gps newVerifId sig txHash ipfsHash blockNum =
      (.error .alreadySealed, st) := by
  simp only [verifyApi]
  rw [hfind]
  dsimp only
  rw [if_neg hself, if_pos hver]

/-- C4 counterexample: on a database holding a claim stored with Rejected
status, the backend attest call succeeds (returns ok and records a new
attestation) instead of failing with ClaimRejected as the claim states. -/
theorem C4_counterexample :
    (findClaim stRej "c1").map Claim.status = some ClaimStatus.rejected ∧
    (verifyApi stRej "w2" "c1" none "v1" "s1" "tx" "ip" 5).1 =
      .ok ⟨"v1", false, 1, none, none⟩ ∧
    (verifyApi stRej "w2" "c1" none "v1" "s1" "tx" "ip" 5).2.verifications.length = 1 := by
  with_unfolding_all decide

theorem C4_attest_terminal_claim_witness :
    verifyApi wit4 "w9" "c1" none "v9" "s9" "tx9" "ip9" 9 = (.error .alreadySealed, wit4) :=
  C4_attest_terminal_claim wit4 "w9" "c1" none "v9" "s9" "tx9" "ip9" 9 claimW4
    (by decide) (by decide) (by decide)

/-- C5 (code bug): the backend accepts a submission with negative hours and
stores the claim.  The JS guard `if (!hours ...)` only catches hours = 0 and
the only range check is hours > 16, so hours = -5 passes validation and is
stored as a pending claim, while the claim (with the spec and the on-chain
contract, whose submitClaim requires hoursX10 > 0) says any hours ≤ 0 must
fail with an InvalidHours validation error. -/
theorem C5_negative_hours_accepted :
    (submitClaim emptyState "w1" (-5) "task one" 0 0 "c1" "f1").1 =
      .ok ⟨"c1", 0, -5, ClaimStatus.pending, 0⟩ ∧
    (findClaim (submitClaim emptyState "w1" (-5) "task one" 0 0 "c1" "f1").2 "c1").map
      Claim.hours = some (-5) := by
  with_unfolding_all decide

/-- C6 (code bug): a valid backend attestation leaves the verifier's
reputation_score untouched — the handler only increments the verifier's
verification_depth — while the claim (with the README's consensus summary
and the contract's REP_GAIN_VERIFY) says each valid attestation raises the
verifier's reputation by 0.5.  Here w2 attests w1's pending claim: the call
succeeds, w2's reputation stays 50 and only its depth counter moves 0 to 1. -/
theorem C6_verifier_reputation_unchanged :
    (verifyApi stC6 "w2" "c1" none "v1" "s1" "tx" "ip" 5).1 =
      .ok ⟨"v1", false, 1, none, none⟩ ∧
    findWorker stC6 "w2" = some ⟨"w2", 50, 0, 0⟩ ∧
    findWorker (verifyApi stC6 "w2" "c1" none "v1" "s1" "tx" "ip" 5).2 "w2" =
      some ⟨"w2", 50, 1, 0⟩ := by
  with_unfolding_all decide

/-! ### Claims C1 and C3 -/

theorem countKey_le_one {st : ServerState}
    (hp : st.claims.Pairwise (fun a b => ¬(a.worker_id = b.worker_id ∧ a.date = b.date)))
    (w : String) (d : ℤ) : countKey st w d ≤ 1 := by
  unfold countKey
  have hfp := hp.filter (fun c => c.worker_id == w && c.date == d)
  rcases hlist : st.claims.filter (fun c => c.worker_id == w && c.date == d) with _ | ⟨x, _ | ⟨y, t⟩⟩
  · simp [hlist]
  · simp [hlist]
  · exfalso
    rw [hlist] at hfp
    have hR := (List.pairwise_cons.mp hfp).1 y (by simp)
    have hx : x ∈ st.claims.filter (fun c => c.worker_id == w && c.date == d) := by
      rw [hlist]; simp
    have hy : y ∈ st.claims.filter (fun c => c.worker_id == w && c.date == d) := by
      rw [hlist]; simp
    have px := List.of_mem_filter hx
    have py := List.of_mem_filter hy
    simp only [Bool.and_eq_true, beq_iff_eq] at px py
    exact hR ⟨px.1.trans py.1.symm, px.2.trans py.2.symm⟩

theorem countKey_zero_of_not_any {st : ServerState} {w : String} {d : ℤ}
    (h : (st.claims.any (fun c => c.worker_id == w && c.date == d)) = false) :
    countKey st w d = 0 := by
  unfold countKey
  rw [List.length_eq_zero, List.filter_eq_nil_iff]
  intro c hc
  have := List.any_eq_false.mp (by exact h) c hc
  simpa using this

/-- C1 (amended): quorum exactness over reachable backend states.  A claim's
status is Verified exactly when its valid-attestation count has reached the
quorum of 3, and an attest call that brings the count only to 2 or below
returns {sealed := false, countSoFar := count} and leaves the claim without
any settlement record — but, contrary to the original claim, the backend
leaves the claim's status Pending below quorum rather than setting
PartiallyVerified (that intermediate status exists only in the on-chain
contract). -/
theorem C1_quorum_exactness (st : ServerState) (hreach : Reachable st) :
    (∀ c ∈ st.claims,
      (c.status = ClaimStatus.verified ↔ 3 ≤ validCount st.verifications c.id)) ∧
    (∀ verifierId claimId gps newVerifId sig txHash ipfsHash blockNum claim,
      findClaim st claimId = some claim →
      ¬claim.worker_id = verifierId →
      ¬claim.status = ClaimStatus.verified →
      (st.verifications.any
        (fun v => v.claim_id == claimId && v.verifier_id == verifierId)) = false →
      gpsTooFar gps = false →
      validCount st.verifications claimId + 1 ≤ 2 →
      (verifyApi st verifierId claimId gps newVerifId sig txHash ipfsHash blockNum).1 =
        .ok ⟨newVerifId, false, validCount st.verifications claimId + 1, none, none⟩ ∧
      findClaim (verifyApi st verifierId claimId gps newVerifId sig txHash ipfsHash blockNum).2
          claimId = some claim ∧
      claim.status = ClaimStatus.pending ∧ claim.tx_hash = none ∧
      claim.ipfs_hash = none ∧ claim.block_number = none) := by
  obtain ⟨h1, h2, h3, h4⟩ := reachable_inv hreach
  constructor
  · intro c hc
    rcases h4 c hc with ⟨hst, hcnt⟩ | ⟨hst, hcnt, _⟩
    · exact ⟨fun _ => by omega, fun _ => hst⟩
    · constructor
      · intro hvv
        exact absurd (hst.symm.trans hvv) (by decide)
      · intro h3le
        omega
  · intro verifierId claimId gps newVerifId sig txHash ipfsHash blockNum claim
      hfind hself hver hdup hgps hle
    obtain ⟨hmem, hid⟩ := findClaim_mem hfind
    have hpf : claim.status = ClaimStatus.pending ∧ claim.tx_hash = none ∧
        claim.ipfs_hash = none ∧ claim.block_number = none := by
      rcases h4 claim hmem with ⟨hst, _⟩ | ⟨hst, _, ht, hi, hb⟩
      · exact absurd hst hver
      · exact ⟨hst, ht, hi, hb⟩
    rw [verifyApi_ok st verifierId claimId gps newVerifId sig txHash ipfsHash blockNum claim
      hfind hself hver hdup hgps, if_neg (by omega)]
    refine ⟨rfl, ?_, hpf.1, hpf.2.1, hpf.2.2.1, hpf.2.2.2⟩
    exact hfind

/-- C1 counterexample: an attest that leaves the valid-attestation count at
1 (at most quorum-1) returns sealed = false, but the stored claim's status
is still Pending, not the PartiallyVerified the claim requires. -/
theorem C1_counterexample :
    (verifyApi wit1 "w2" "c1" none "v1" "s1" "tx1" "ip1" 5).1 =
      .ok ⟨"v1", false, 1, none, none⟩ ∧
    (findClaim (verifyApi wit1 "w2" "c1" none "v1" "s1" "tx1" "ip1" 5).2 "c1").map
      Claim.status = some ClaimStatus.pending ∧
    some ClaimStatus.pending ≠ some ClaimStatus.partiallyVerified := by
  with_unfolding_all decide

theorem C1_quorum_exactness_witness :
    (verifyApi wit1 "w2" "c1" none "v1" "s1" "tx1" "ip1" 5).1 =
      .ok ⟨"v1", false, validCount wit1.verifications "c1" + 1, none, none⟩ ∧
    findClaim (verifyApi wit1 "w2" "c1" none "v1" "s1" "tx1" "ip1" 5).2 "c1" = some claimW1 ∧
    claimW1.status = ClaimStatus.pending ∧ claimW1.tx_hash = none ∧
    claimW1.ipfs_hash = none ∧ claimW1.block_number = none :=
  (C1_quorum_exactness wit1 reach_wit1).2 "w2" "c1" none "v1" "s1" "tx1" "ip1" 5 claimW1
    (by decide) (by decide) (by decide) (by decide) (by decide) (by decide)

/-- C3: one claim per participant per calendar date.  In every reachable
state the ledger holds at most one claim per (participant, date) key; a
second submit for an already-claimed key fails with the DuplicateClaim
conflict and leaves the database unchanged; and a successful submit leaves
exactly one claim for its key. -/
theorem C3_one_claim_per_date (st : ServerState) (hreach : Reachable st) (w : String)
    (d : ℤ) :
    countKey st w d ≤ 1 ∧
    (∀ hrs task createdMin newClaimId flagId, ¬(hrs = 0 ∨ task = "") → ¬(16 < hrs) →
      1 ≤ countKey st w d →
      submitClaim st w hrs task d createdMin newClaimId flagId =
        (.error .duplicateClaim, st)) ∧
    (∀ hrs task createdMin newClaimId flagId r st',
      submitClaim st w hrs task d createdMin newClaimId flagId = (.ok r, st') →
      countKey st' w d = 1) := by
  obtain ⟨h1, h2, h3, h4⟩ := reachable_inv hreach
  refine ⟨countKey_le_one h2 w d, ?_, ?_⟩
  · intro hrs task createdMin newClaimId flagId hmf hhi hcount
    have hdup : (st.claims.any (fun c => c.worker_id == w && c.date == d)) = true := by
      unfold countKey at hcount
      rcases hl : st.claims.filter (fun c => c.worker_id == w && c.date == d) with _ | ⟨x, t⟩
      · rw [hl] at hcount
        simp at hcount
      · have hx : x ∈ st.claims.filter (fun c => c.worker_id == w && c.date == d) := by
          rw [hl]; simp
        rw [List.any_eq_true]
        refine ⟨x, List.mem_of_mem_filter hx, ?_⟩
        simpa using List.of_mem_filter hx
    simp only [submitClaim]
    rw [if_neg hmf, if_neg hhi, if_pos hdup]
  · intro hrs task createdMin newClaimId flagId r st' heq
    simp only [submitClaim] at heq
    split_ifs at heq with hmf hhi hdup hflag
    · simp at heq
    · simp at heq
    · simp at heq
    all_goals {
      have hzero : countKey st w d = 0 := countKey_zero_of_not_any (by simpa using hdup)
      have hst' : st'.claims = st.claims ++
          [⟨newClaimId, w, d, hrs, task, .pending,
            calcAnomalyScore st.claims w hrs d, none, none, none, createdMin⟩] := by
        rw [Prod.mk.injEq] at heq
        rw [← heq.2]
      unfold countKey at hzero ⊢
      rw [hst', List.filter_append]
      simp only [List.filter_cons, List.filter_nil]
      rw [List.length_append, hzero]
      simp }

theorem C3_one_claim_per_date_witness :
    countKey wit1 "w1" 0 ≤ 1 ∧
    submitClaim wit1 "w1" 6 "task two" 0 0 "c2" "f2" = (.error .duplicateClaim, wit1) := by
  refine ⟨(C3_one_claim_per_date wit1 reach_wit1 "w1" 0).1, ?_⟩
  exact (C3_one_claim_per_date wit1 reach_wit1 "w1" 0).2.1 6 "task two" 0 "c2" "f2"
    (by simp) (by norm_num) (by decide)

/-! ### Claim C2 -/

/-- C2: sealing effects.  When an attest call passes all validation and
brings the valid-attestation count to the quorum of 3, the handler returns
sealed = true with the settlement references, the stored claim becomes
Verified and carries the settlement record (tx hash, content hash and block
sequence number), and the owner's row gets total_days_worked incremented by
exactly 1 and reputation_score set to min 100 (old + 0.5). -/
theorem C2_sealing_effects (st : ServerState) (verifierId claimId : String) (gps : Option ℚ)
    (newVerifId sig txHash ipfsHash : String) (blockNum : ℤ) (claim : Claim) (owner : Worker)
    (hfind : findClaim st claimId = some claim)
    (hself : ¬claim.worker_id = verifierId)
    (hver : ¬claim.status = ClaimStatus.verified)
    (hdup : (st.verifications.any
        (fun v => v.claim_id == claimId && v.verifier_id == verifierId)) = false)
    (hgps : gpsTooFar gps = false)
    (hquorum : 3 ≤ validCount st.verifications claimId + 1)
    (howner : findWorker st claim.worker_id = some owner) :
    (verifyApi st verifierId claimId gps newVerifId sig txHash ipfsHash blockNum).1 =
      .ok ⟨newVerifId, true, validCount st.verifications claimId + 1,
           some txHash, some ipfsHash⟩ ∧
    findClaim (verifyApi st verifierId claimId gps newVerifId sig txHash ipfsHash blockNum).2
        claimId =
      some { claim with
              status := ClaimStatus.verified
              tx_hash := some txHash
              ipfs_hash := some ipfsHash
              block_number := some blockNum } ∧
    findWorker (verifyApi st verifierId claimId gps newVerifId sig txHash ipfsHash blockNum).2
        claim.worker_id =
      some { owner with
              total_days_worked := owner.total_days_worked + 1
              reputation_score := min 100 (owner.reputation_score + 0.5) } := by
  obtain ⟨hmemw, hidw⟩ := findWorker_mem howner
  obtain ⟨hmemc, hidc⟩ := findClaim_mem hfind
  rw [verifyApi_ok st verifierId claimId gps newVerifId sig txHash ipfsHash blockNum claim
    hfind hself hver hdup hgps, if_pos hquorum]
  refine ⟨rfl, ?_, ?_⟩
  · simp only [findClaim, sealState, insertVerifState]
    rw [find?_map_pres (fun c => if c.id == claimId then sealClaimRec txHash ipfsHash blockNum c
        else c) (fun c => c.id == claimId)
      (fun a => by dsimp only; split <;> rfl)]
    unfold findClaim at hfind
    rw [hfind]
    rw [Option.map_some']
    rw [if_pos (by simpa using hidc)]
    rfl
  · simp only [findWorker, sealState, insertVerifState]
    rw [find?_map_pres (fun w => if w.id == claim.worker_id then sealOwner w else w)
      (fun w => w.id == claim.worker_id) (fun a => by dsimp only; split <;> rfl)]
    rw [find?_map_pres (fun w => if w.id == verifierId then bumpDepth w else w)
      (fun w => w.id == claim.worker_id) (fun a => by dsimp only; split <;> rfl)]
    unfold findWorker at howner
    rw [howner]
    rw [Option.map_some', if_neg (by rw [hidw]; simpa using hself), Option.map_some',
      if_pos (by simpa using hidw)]
    rfl

theorem C2_sealing_effects_witness :
    (verifyApi stC2 "w4" "c1" none "v3" "s3" "tx" "ip" 5).1 =
      .ok ⟨"v3", true, validCount stC2.verifications "c1" + 1, some "tx", some "ip"⟩ ∧
    findClaim (verifyApi stC2 "w4" "c1" none "v3" "s3" "tx" "ip" 5).2 "c1" =
      some { claimW1 with
              status := ClaimStatus.verified
              tx_hash := some "tx"
              ipfs_hash := some "ip"
              block_number := some 5 } ∧
    findWorker (verifyApi stC2 "w4" "c1" none "v3" "s3" "tx" "ip" 5).2 claimW1.worker_id =
      some { (⟨"w1", 50, 0, 0⟩ : Worker) with
              total_days_worked := 0 + 1
              reputation_score := min 100 (50 + 0.5) } :=
  C2_sealing_effects stC2 "w4" "c1" none "v3" "s3" "tx" "ip" 5 claimW1 ⟨"w1", 50, 0, 0⟩
    (by decide) (by decide) (by decide) (by decide) (by decide) (by decide) (by decide)

/-! ### Claim C10 -/

theorem submitClaim_verifs_unchanged (st : ServerState) (workerId : String) (hrs : ℚ)
    (task : String) (date createdMin : ℤ) (newClaimId flagId : String) :
    (submitClaim st workerId hrs task date createdMin newClaimId flagId).2.verifications =
      st.verifications := by
  simp only [submitClaim]
  split_ifs <;> rfl

theorem submitClaim_claims_grow (st : ServerState) (workerId : String) (hrs : ℚ)
    (task : String) (date createdMin : ℤ) (newClaimId flagId : String) {c : Claim}
    (hc : c ∈ st.claims) :
    c ∈ (submitClaim st workerId hrs task date createdMin newClaimId flagId).2.claims := by
  simp only [submitClaim]
  split_ifs <;> first
    | exact hc
    | exact List.mem_append_left _ hc

/-- C10: sealed claims are frozen at the quorum count.  In every state
reachable from the empty database by submit and attest calls, a claim whose
status is Verified carries exactly 3 valid attestations; a further attest
call on it fails (with SelfVerification or AlreadySealed) leaving the
database unchanged; and any further submit or attest step preserves both the
claim row and its recorded attestation set. -/
theorem C10_sealed_claims_frozen (st : ServerState) (hreach : Reachable st) (c : Claim)
    (hc : c ∈ st.claims) (hv : c.status = ClaimStatus.verified) :
    validCount st.verifications c.id = 3 ∧
    (∀ verifierId gps newVerifId sig txHash ipfsHash blockNum,
      (verifyApi st verifierId c.id gps newVerifId sig txHash ipfsHash blockNum).2 = st ∧
      ∃ e, (verifyApi st verifierId c.id gps newVerifId sig txHash ipfsHash blockNum).1 =
        .error e) ∧
    (∀ st', Step st st' → c ∈ st'.claims ∧ attsFor st' c.id = attsFor st c.id) := by
  obtain ⟨h1, h2, h3, h4⟩ := reachable_inv hreach
  have hcnt : validCount st.verifications c.id = 3 := by
    rcases h4 c hc with ⟨_, h⟩ | ⟨hst, _⟩
    · exact h
    · exact absurd (hst.symm.trans hv) (by decide)
  have hfind : findClaim st c.id = some c := by
    unfold findClaim
    exact find?_eq_some_of_mem h1 hc
  refine ⟨hcnt, ?_, ?_⟩
  · intro verifierId gps newVerifId sig txHash ipfsHash blockNum
    simp only [verifyApi]
    rw [hfind]
    dsimp only
    by_cases hself : c.worker_id = verifierId
    · rw [if_pos hself]
      exact ⟨rfl, .selfVerification, rfl⟩
    · rw [if_neg hself, if_pos hv]
      exact ⟨rfl, .alreadySealed, rfl⟩
  · intro st' hstep
    cases hstep with
    | submit workerId hrs task date createdMin newClaimId flagId hfresh =>
      refine ⟨submitClaim_claims_grow st workerId hrs task date createdMin newClaimId
        flagId hc, ?_⟩
      unfold attsFor
      rw [submitClaim_verifs_unchanged]
    | attest verifierId claimId gps newVerifId sig txHash ipfsHash blockNum =>
      simp only [verifyApi]
      cases hf : findClaim st claimId
      · exact ⟨hc, rfl⟩
      case some claim' =>
        obtain ⟨hmem', hid'⟩ := findClaim_mem hf
        dsimp only
        split_ifs with hself hver hdup hgps hcnt3
        · exact ⟨hc, rfl⟩
        · exact ⟨hc, rfl⟩
        · exact ⟨hc, rfl⟩
        · exact ⟨hc, rfl⟩
        · -- sealing some other claim
          have hne : ¬(c.id == claimId) = true := by
            simp only [beq_iff_eq]
            intro he
            have hceq : claim' = c := eq_of_mem_pairwise_ne h1 hmem' hc (by rw [hid', he])
            rw [hceq, hv] at hver
            exact hver rfl
          constructor
          · refine List.mem_map.mpr ⟨c, hc, ?_⟩
            simp only [hne]
            rw [if_neg (by simp [hne])]
          · show List.filter _ (st.verifications ++ _) = _
            rw [List.filter_append]
            have : (List.filter (fun v => v.claim_id == c.id)
                [(⟨newVerifId, claimId, verifierId, sig, gps, true⟩ : Verification)]) = [] := by
              simp only [List.filter_cons, List.filter_nil]
              rw [if_neg]
              simp only [beq_iff_eq]
              intro he
              exact hne (by simp [he])
            rw [this, List.append_nil]
            rfl
        · -- below-quorum attest on some other claim
          have hne : ¬(c.id == claimId) = true := by
            simp only [beq_iff_eq]
            intro he
            have hceq : claim' = c := eq_of_mem_pairwise_ne h1 hmem' hc (by rw [hid', he])
            rw [hceq, hv] at hver
            exact hver rfl
          refine ⟨hc, ?_⟩
          show List.filter _ (st.verifications ++ _) = _
          rw [List.filter_append]
          have : (List.filter (fun v => v.claim_id == c.id)
              [(⟨newVerifId, claimId, verifierId, sig, gps, true⟩ : Verification)]) = [] := by
            simp only [List.filter_cons, List.filter_nil]
            rw [if_neg]
            simp only [beq_iff_eq]
            intro he
            exact hne (by simp [he])
          rw [this, List.append_nil]
          rfl

theorem C10_sealed_claims_frozen_witness :
    validCount wit4.verifications claimW4.id = 3 ∧
    (verifyApi wit4 "w9" claimW4.id none "v9" "s9" "t9" "i9" 9).2 = wit4 ∧
    ∃ e, (verifyApi wit4 "w9" claimW4.id none "v9" "s9" "t9" "i9" 9).1 = .error e := by
  have h := C10_sealed_claims_frozen wit4 reach_wit4 claimW4 (by decide) (by decide)
  exact ⟨h.1, (h.2.1 "w9" none "v9" "s9" "t9" "i9" 9).1, (h.2.1 "w9" none "v9" "s9" "t9" "i9" 9).2⟩

/-! ### Claims C8 and the C9 witness -/

/-- C8 (amended): the scan summary partitions flags by their risk LABEL, not
by score.  high counts the flags labelled "high", medium those labelled
"medium", every generated flag carries one of those two labels, and
high + medium + low = total.  Merged stored flags are labelled high exactly
when their score exceeds 0.7, but the built-in timestamp-clustering flags
are labelled medium with score 0.71 — so, contrary to the original claim, a
flag with score 0.71 > 0.7 is counted in the medium bucket, not high (see
the counterexample). -/
theorem C8_summary_partition (st : ServerState) :
    (scanSummary st).high + (scanSummary st).medium + (scanSummary st).low =
      (scanSummary st).total ∧
    (scanSummary st).high = ((scanFlags st).filter (fun f => f.risk == "high")).length ∧
    (scanSummary st).medium = ((scanFlags st).filter (fun f => f.risk == "medium")).length ∧
    (∀ f ∈ scanFlags st, f.risk = "high" ∨ f.risk = "medium") ∧
    (∀ f ∈ dbFlagScan st, f.risk = if 0.7 < f.score then "high" else "medium") ∧
    (∀ f ∈ timestampFlags st, f.risk = "medium" ∧ f.score = 0.71) := by
  have hlabel : ∀ f ∈ scanFlags st, f.risk = "high" ∨ f.risk = "medium" := by
    intro f hf
    simp only [scanFlags, List.mem_append] at hf
    rcases hf with ((hf | hf) | hf) | hf
    · obtain ⟨c, _, rfl⟩ := List.mem_map.mp hf
      left; rfl
    · obtain ⟨v, _, hv⟩ := List.mem_filterMap.mp hf
      dsimp only at hv
      split_ifs at hv
      obtain rfl := Option.some.inj hv
      left; rfl
    · obtain ⟨m, _, hm⟩ := List.mem_filterMap.mp hf
      dsimp only at hm
      split_ifs at hm
      obtain rfl := Option.some.inj hm
      right; rfl
    · obtain ⟨x, _, rfl⟩ := List.mem_map.mp hf
      dsimp only
      split_ifs
      · left; rfl
      · right; rfl
  have hsplit : ((scanFlags st).filter (fun f => f.risk == "high")).length +
      ((scanFlags st).filter (fun f => f.risk == "medium")).length =
      (scanFlags st).length := by
    apply filter_split_length
    intro f hf
    rcases hlabel f hf with h | h <;> rw [h] <;> simp
  refine ⟨?_, rfl, rfl, hlabel, ?_, ?_⟩
  · simp only [scanSummary]
    omega
  · intro f hf
    obtain ⟨x, _, rfl⟩ := List.mem_map.mp hf
    rfl
  · intro f hf
    obtain ⟨m, _, hm⟩ := List.mem_filterMap.mp hf
    dsimp only at hm
    split_ifs at hm
    obtain rfl := Option.some.inj hm
    exact ⟨rfl, rfl⟩

/-- C8 counterexample: a ledger with four claims created in the same minute.
The scan emits exactly one flag — a timestamp cluster with score 0.71 > 0.7
— but the summary counts it in the medium bucket (high = 0), refuting the
claimed score > 0.7 high-bucket rule. -/
theorem C8_counterexample :
    scanFlags stTS = [⟨"timestamp_cluster", "medium", 0.71, "0"⟩] ∧
    (0.7 : ℚ) < 0.71 ∧
    (scanSummary stTS).high = 0 ∧ (scanSummary stTS).medium = 1 := by
  with_unfolding_all decide

theorem C8_summary_partition_witness :
    (scanSummary stTS).high + (scanSummary stTS).medium + (scanSummary stTS).low =
      (scanSummary stTS).total ∧
    (⟨"timestamp_cluster", "medium", 0.71, "0"⟩ : ScanFlag).risk = "medium" ∧
    (⟨"timestamp_cluster", "medium", 0.71, "0"⟩ : ScanFlag).score = 0.71 := by
  refine ⟨(C8_summary_partition stTS).1, ?_, ?_⟩
  · exact ((C8_summary_partition stTS).2.2.2.2.2 ⟨"timestamp_cluster", "medium", 0.71, "0"⟩
      (by with_unfolding_all decide)).1
  · exact ((C8_summary_partition stTS).2.2.2.2.2 ⟨"timestamp_cluster", "medium", 0.71, "0"⟩
      (by with_unfolding_all decide)).2

theorem C9_failure_atomicity_witness :
    (submitClaim wit1 "w1" 6 "task two" 0 0 "c9" "f9").2 = wit1 ∧
    (verifyApi wit1 "w9" "nope" none "v9" "s9" "t9" "i9" 9).2 = wit1 ∧
    (creditApi wit1 "w9" "r1").2 = wit1 := by
  refine ⟨?_, ?_, ?_⟩
  · exact (C9_failure_atomicity wit1).1 "w1" 6 "task two" 0 0 "c9" "f9" .duplicateClaim
      (by with_unfolding_all decide)
  · exact (C9_failure_atomicity wit1).2.1 "w9" "nope" none "v9" "s9" "t9" "i9" 9 .claimNotFound
      (by decide)
  · exact (C9_failure_atomicity wit1).2.2 "w9" "r1" .workerNotFound (by decide)

end PoW
